import Mathlib

/-!
Verification development for the art-studio site script (src/js/script.js).

Modelling conventions (shallow embedding):

* A JS number is modelled by JsNum: an exact rational when finite, with
  Infinity, -Infinity and NaN as explicit constructors.  Rounding of
  finite values (including underflow to zero) is idealised as exact, with
  one exception the cart guard can observe: the parseFloat model does
  produce Infinity, both for the literal Infinity and for parsed values at
  or beyond the binary64 overflow boundary 2^1024 - 2^970, because the
  isNaN/negative guard in addToCart accepts Infinity into the cart.  The
  exponential ToString form of toFixed for inputs at or above 10^21
  remains outside the model.
* The price argument of addToCart ranges over the JS primitive values
  plus strings (PriceInput): numbers including NaN and the infinities,
  strings, null, booleans and undefined.  Objects and arrays, whose
  coercion funnels through ToPrimitive, and symbols and bigints, on which
  the isNaN coercion itself throws, are outside the primitive model.
* localStorage is modelled at the value level: the stored cell holds either
  a JSON value (JSON.stringify and JSON.parse being mutually inverse on the
  values this program stores) or opaque garbage that JSON.parse rejects by
  throwing; the textual wire format is not modelled because the JS
  number-to-string round trip is itself a binary64 artefact.  A separate
  availability flag models localStorage being unusable (privacy mode or
  quota), in which case reads fall back to the empty cart and writes leave
  the stored cell untouched, exactly as the try/catch blocks do.
* DOM elements that a claim exercises (cart table, total element, modal
  overlay and image) are assumed present, as on the store and gallery
  pages; the guards for absent markup only cause earlier returns and are
  orthogonal to the claims below.
* The generated cart-item id (Date.now plus Math.random, base 36) is an
  environment input, so the operations take it as an explicit argument.
* The user answer to confirm(...) is likewise an explicit argument, and the
  model of clearCart also reports whether confirm was invoked at all.
-/

namespace ArtStudio

/-- A JSON value, as produced by JSON.parse.  Numbers are finite rationals
(JSON has no NaN or Infinity). -/
inductive JsonVal where
  | null : JsonVal
  | bool (b : Bool) : JsonVal
  | num (q : ℚ) : JsonVal
  | str (s : String) : JsonVal
  | arr (elems : List JsonVal) : JsonVal
  | obj (fields : List (String × JsonVal)) : JsonVal

/-- A cart line item as built by addToCart: plain record with name, price
and id fields.  Finiteness of the price is inherent in the rational
representation. -/
structure CartItem where
  name : String
  price : ℚ
  id : String
deriving DecidableEq, Repr

/-- The JSON object that JSON.stringify produces for one cart item. -/
def encodeItem (it : CartItem) : JsonVal :=
  .obj [("name", .str it.name), ("price", .num it.price), ("id", .str it.id)]

/-- Reads a cart item back from a JSON value: an object whose name and id
fields are strings and whose price field is a number.  Yields none on any
other shape. -/
def decodeItem : JsonVal → Option CartItem
  | .obj fields =>
      match fields.lookup "name", fields.lookup "price", fields.lookup "id" with
      | some (.str n), some (.num p), some (.str i) => some ⟨n, p, i⟩
      | _, _, _ => none
  | _ => none

/-- Content of the localStorage cell under the key artStudioCart:
either a JSON value (a string JSON.parse accepts) or garbage
(a string JSON.parse throws on). -/
inductive Stored where
  | json (v : JsonVal) : Stored
  | garbage : Stored

/-- The character classes that parseFloat skips as leading whitespace
(the common JS WhiteSpace and LineTerminator code points). -/
def isJsSpace (c : Char) : Bool :=
  c = ' ' || c = '\t' || c = '\n' || c = '\r' ||
  c = Char.ofNat 11 || c = Char.ofNat 12 || c = Char.ofNat 160

/-- Numeric value of a decimal digit string. -/
def digitsToNat (ds : List Char) : ℕ :=
  ds.foldl (fun acc c => 10 * acc + (c.toNat - 48)) 0

/-- A JS number: an exact rational when finite, and the three special
values.  Finite rounding is idealised as exact. -/
inductive JsNum where
  | finite (q : ℚ) : JsNum
  | inf : JsNum
  | negInf : JsNum
  | nan : JsNum
deriving DecidableEq, Repr

/-- The smallest magnitude at which IEEE binary64 round-to-nearest
(ties to even) rounds up to Infinity: the midpoint between the largest
finite double 2^1024 - 2^971 and 2^1024, the midpoint itself rounding to
the even neighbour 2^1024 and overflowing. -/
def overflowBound : ℚ := 2 ^ 1024 - 2 ^ 970

/-- Model of the JS parseFloat builtin on a character list: skip leading
whitespace, an optional sign, then either the literal Infinity or the
longest decimal-literal prefix (integer digits, optional fraction,
optional exponent whose digits may be absent, in which case it
contributes nothing, as in parseFloat applied to the string 1e); trailing
garbage is ignored.  No parsable prefix gives NaN; a parsed magnitude at
or beyond the binary64 overflow boundary gives the signed Infinity, as
the rounding step of the real parseFloat does. -/
def parseFloatAux (cs : List Char) : JsNum :=
  let cs := cs.dropWhile isJsSpace
  let (neg, cs) : Bool × List Char :=
    match cs with
    | '-' :: rest => (true, rest)
    | '+' :: rest => (false, rest)
    | _ => (false, cs)
  if cs.take 8 = ['I', 'n', 'f', 'i', 'n', 'i', 't', 'y'] then
    if neg then JsNum.negInf else JsNum.inf
  else
    let intDigits := cs.takeWhile Char.isDigit
    let cs1 := cs.dropWhile Char.isDigit
    let (fracDigits, cs2) : List Char × List Char :=
      match cs1 with
      | '.' :: rest => (rest.takeWhile Char.isDigit, rest.dropWhile Char.isDigit)
      | _ => ([], cs1)
    if intDigits.isEmpty && fracDigits.isEmpty then
      JsNum.nan
    else
      let mantissa : ℚ :=
        (digitsToNat intDigits : ℚ) +
          (digitsToNat fracDigits : ℚ) / ((10 : ℚ) ^ fracDigits.length)
      let value : ℚ :=
        match cs2 with
        | 'e' :: rest | 'E' :: rest =>
            let (negExp, ds) : Bool × List Char :=
              match rest with
              | '-' :: ds => (true, ds)
              | '+' :: ds => (false, ds)
              | ds => (false, ds)
            let expDigits := ds.takeWhile Char.isDigit
            if expDigits.isEmpty then mantissa
            else if negExp then mantissa / ((10 : ℚ) ^ digitsToNat expDigits)
            else mantissa * ((10 : ℚ) ^ digitsToNat expDigits)
        | _ => mantissa
      if overflowBound ≤ value then
        if neg then JsNum.negInf else JsNum.inf
      else
        JsNum.finite (if neg then -value else value)

/-- parseFloat on a string. -/
def parseFloat (s : String) : JsNum :=
  parseFloatAux s.toList

/-- A non-string JS primitive value: what the parsed price can be after
the ternary in addToCart has replaced strings, and hence also what a cart
item created by addToCart can carry as its price. -/
inductive PriceValue where
  | num (n : JsNum) : PriceValue
  | nullV : PriceValue
  | boolV (b : Bool) : PriceValue
  | undef : PriceValue
deriving DecidableEq, Repr

/-- The price argument of addToCart: any JS primitive value — a number
(NaN and the infinities included), a string, null, a boolean or
undefined.  Objects and arrays (coerced through ToPrimitive) and symbols
and bigints (on which isNaN throws) are outside this primitive model. -/
inductive PriceInput where
  | prim (v : PriceValue) : PriceInput
  | str (s : String) : PriceInput
deriving DecidableEq, Repr

/-- The ternary in addToCart: a string argument goes through parseFloat,
every other argument passes through unchanged. -/
def parsedPrice : PriceInput → PriceValue
  | .prim v => v
  | .str s => .num (parseFloat s)

/-- The ToNumber coercion that both isNaN and the relational comparison
apply to the (non-string) parsed price: numbers unchanged, null to 0,
booleans to 0 or 1, undefined to NaN. -/
def toNumber : PriceValue → JsNum
  | .num n => n
  | .nullV => .finite 0
  | .boolV b => .finite (if b then 1 else 0)
  | .undef => .nan

/-- The number the validation isNaN(parsedPrice) and parsedPrice < 0 is
performed on. -/
def guardNum (p : PriceInput) : JsNum :=
  toNumber (parsedPrice p)

/-- The raw cart item addToCart pushes: name and generated id, and the
parsed price, which is whatever primitive value survived the guard — a
number for number and string arguments, but null or a boolean when such a
value was passed and its coercion slipped through. -/
structure RawCartItem where
  name : String
  price : PriceValue
  id : String
deriving DecidableEq, Repr

/-- addToCart, lines 250 to 286, over the full primitive price domain:
rejects a falsy (empty) name; computes parsedPrice by the ternary; the
guard rejects when the coerced parsed price is NaN (isNaN) or compares
below zero (a negative finite number or -Infinity); otherwise the item is
pushed carrying parsedPrice itself.  The id is an environment input
(Date.now and Math.random). -/
def addToCartFull (name : String) (price : PriceInput) (id : String)
    (cart : List RawCartItem) : List RawCartItem :=
  if name = "" then cart
  else
    match guardNum price with
    | .nan => cart
    | .negInf => cart
    | .finite q =>
        if q < 0 then cart else cart ++ [⟨name, parsedPrice price, id⟩]
    | .inf => cart ++ [⟨name, parsedPrice price, id⟩]

/-- The parsed price when it is a finite number, none otherwise.  This is
the domain on which the item-level addToCart below agrees with
addToCartFull (theorem addToCartFull_agrees). -/
def parsePrice (p : PriceInput) : Option ℚ :=
  match parsedPrice p with
  | .num (.finite q) => some q
  | _ => none

/-- The view of a well-formed cart item as the raw item it is stored
as. -/
def rawOfItem (it : CartItem) : RawCartItem :=
  ⟨it.name, .num (.finite it.price), it.id⟩

/-- addToCart restricted to the carts and prices the rest of the program
produces and the well-formedness claims quantify over: items with finite
number prices.  On a price whose parse is a finite number, or one the
guard rejects as NaN or negative, this is the restriction of
addToCartFull along rawOfItem (theorem addToCartFull_agrees); the leak
cases — Infinity, null and booleans, which the real guard accepts with a
non-finite or non-number price — live only in addToCartFull. -/
def addToCart (name : String) (price : PriceInput) (id : String)
    (cart : List CartItem) : List CartItem :=
  if name = "" then cart
  else
    match parsePrice price with
    | none => cart
    | some q => if q < 0 then cart else cart ++ [⟨name, q, id⟩]

/-- The index argument of removeItem: a finite JS number, NaN (for which
typeof still answers number), or any value that is not a number. -/
inductive IndexInput where
  | num (q : ℚ) : IndexInput
  | nan : IndexInput
  | nonNumber : IndexInput
deriving DecidableEq, Repr

/-- removeItem: the guard rejects non-numbers and numbers outside
[0, length), then splice(index, 1) deletes one element at the index
truncated to an integer.  Both comparisons with NaN are false, so NaN
slips through the guard and splice truncates it to 0.  splice is
indifferent to what the array holds, so the operation is polymorphic in
the element type (used at well-formed items and at raw items alike). -/
def removeItem {α : Type} (idx : IndexInput) (cart : List α) : List α :=
  match idx with
  | .nonNumber => cart
  | .nan => cart.eraseIdx 0
  | .num q =>
      if q < 0 ∨ (cart.length : ℚ) ≤ q then cart
      else cart.eraseIdx (Int.toNat ⌊q⌋)

/-- loadCart, lines 189 to 220: with localStorage unusable or the key
absent, the cart becomes empty; with garbage stored, JSON.parse throws
into the catch and the cart becomes empty; with a JSON value stored, only
Array.isArray is checked: any array is installed as the cart unchanged,
any non-array resets to empty.  Total by construction, so every failure
degrades rather than throwing outward. -/
def loadCart (available : Bool) (stored : Option Stored) : List JsonVal :=
  if !available then []
  else
    match stored with
    | none => []
    | some .garbage => []
    | some (.json v) =>
        match v with
        | .arr elems => elems
        | _ => []

/-- saveCart, lines 226 to 238, on a raw JSON cart: with localStorage
usable the cell is overwritten with the stringified cart array; otherwise
the write is skipped (the early return and the catch) and the cell keeps
its previous content. -/
def saveCartRaw (available : Bool) (cart : List JsonVal)
    (stored : Option Stored) : Option Stored :=
  if available then some (.json (.arr cart)) else stored

/-- saveCart applied to a cart of well-formed items, which is what every
in-program call site passes: each item is stringified to its JSON object. -/
def saveCart (available : Bool) (cart : List CartItem)
    (stored : Option Stored) : Option Stored :=
  saveCartRaw available (cart.map encodeItem) stored

/-- The page state the cart subsystem touches: the in-memory cart, the
localStorage cell, and whether localStorage is usable. -/
structure CartState where
  cart : List CartItem
  stored : Option Stored
  available : Bool

/-- clearCart, lines 324 to 336: nothing happens on an empty cart; on a
non-empty cart confirm is invoked, and only a yes answer empties the cart
and persists.  The second component reports whether confirm was invoked,
the confirm answer being an environment input. -/
def clearCart (answer : Bool) (s : CartState) : CartState × Bool :=
  if s.cart.length = 0 then (s, false)
  else if answer then
    ({ s with cart := [], stored := saveCart s.available [] s.stored }, true)
  else (s, true)

/-- checkout, lines 448 to 455: picks one of two alert messages by whether
the cart is empty and leaves the state alone. -/
def checkout (s : CartState) : CartState × String :=
  if s.cart.length = 0 then (s, "Your cart is empty!")
  else (s, "Checkout functionality coming soon!")

/-- The total the view computes: reduce over item prices starting from 0. -/
def cartTotal (cart : List CartItem) : ℚ :=
  cart.foldl (fun sum it => sum + it.price) 0

/-- Model of Number.prototype.toFixed(2): the integer n closest to 100 x,
ties resolved to the larger n, printed with exactly two fraction digits;
the sign comes from the argument itself.  (The exponential form for
magnitudes at and above 10^21 is a binary64 artefact outside this model.)
Computed on the reduced numerator and denominator: with q.num < 0 exactly
when q < 0, and abs q equal to q.num.natAbs / q.den, the quotient
(200 * q.num.natAbs + q.den) / (2 * q.den) in natural-number division is
the floor of 100 * abs q + 1/2, the half-up rounding toFixed
prescribes. -/
def toFixed2 (q : ℚ) : String :=
  let sign := if q.num < 0 then "-" else ""
  let n := (200 * q.num.natAbs + q.den) / (2 * q.den)
  let ip := n / 100
  let fp := n % 100
  sign ++ toString ip ++ "." ++ (if fp < 10 then "0" else "") ++ toString fp

/-- One rendered row of the cart table: the name cell text, the price cell
text, and the data-index carried by the remove button. -/
structure CartRow where
  name : String
  priceText : String
  index : ℕ
deriving DecidableEq, Repr

/-- What updateCartUI leaves in the DOM: either the single placeholder row
with its text, or one row per item; in both cases the text written to the
total element. -/
inductive CartView where
  | emptyView (placeholder : String) (totalText : String) : CartView
  | itemsView (rows : List CartRow) (totalText : String) : CartView
deriving DecidableEq, Repr

/-- The rows built by the forEach over the cart, indices counting up. -/
def renderRows (start : ℕ) : List CartItem → List CartRow
  | [] => []
  | it :: rest =>
      ⟨it.name, "$" ++ toFixed2 it.price, start⟩ :: renderRows (start + 1) rest

/-- updateCartUI, lines 346 to 412, with the cart table and total elements
present: clears and rebuilds the view from the current cart alone — the
placeholder row and a zero total for an empty cart, otherwise one row per
item and the reduced total, both prices and total through toFixed(2). -/
def updateCartUI (cart : List CartItem) : CartView :=
  if cart.length = 0 then
    .emptyView "Your cart is empty" "Total: $0.00"
  else
    .itemsView (renderRows 0 cart) ("Total: $" ++ toFixed2 (cartTotal cart))

/-- Number of rows the view shows. -/
def CartView.rowCount : CartView → ℕ
  | .emptyView _ _ => 1
  | .itemsView rows _ => rows.length

/-- The text in the total element. -/
def CartView.totalText : CartView → String
  | .emptyView _ t => t
  | .itemsView _ t => t

/-- The DOM state the gallery modal code touches, with the overlay and
image elements present (the gallery page): whether the overlay display is
flex, the image src, the caption text and whether it is shown, and whether
body overflow is hidden. -/
structure ModalState where
  isOpen : Bool
  imageSrc : String
  captionText : String
  captionShown : Bool
  scrollLocked : Bool
deriving DecidableEq, Repr

/-- openModal, lines 43 to 82: sets the image src, shows the caption text
when the caption argument is truthy (a non-empty string) and hides it
otherwise, displays the overlay and suppresses body scrolling. -/
def openModal (imageSrc : String) (caption : Option String)
    (s : ModalState) : ModalState :=
  let withImage := { s with imageSrc := imageSrc }
  let withCaption :=
    match caption with
    | some c =>
        if c = "" then { withImage with captionShown := false }
        else { withImage with captionText := c, captionShown := true }
    | none => { withImage with captionShown := false }
  { withCaption with isOpen := true, scrollLocked := true }

/-- closeModal, lines 88 to 107: hides the overlay, restores body
scrolling, and clears the image src so the next open does not flash the
previous image. -/
def closeModal (s : ModalState) : ModalState :=
  { s with isOpen := false, scrollLocked := false, imageSrc := "" }

/-- The UI events the handlers installed by initGalleryModal and
setupModalCloseHandlers react to.  A thumbnail click carries the data-full
and data-caption attribute values (none when absent); an overlay click
records whether the click target was the overlay itself rather than the
image. -/
inductive ModalEvent where
  | thumbnailClick (dataFull : Option String) (dataCaption : Option String) : ModalEvent
  | closeClick : ModalEvent
  | overlayClick (targetIsOverlay : Bool) : ModalEvent
  | escapeKey : ModalEvent
deriving DecidableEq, Repr

/-- One step of the modal machine, following the handlers: a thumbnail
click opens only for a truthy data-full (else only a warning); the close
button always closes; an overlay click closes only when the target is the
overlay itself; Escape closes only while the overlay display is flex. -/
def modalStep (e : ModalEvent) (s : ModalState) : ModalState :=
  match e with
  | .thumbnailClick dataFull dataCaption =>
      match dataFull with
      | some src => if src = "" then s else openModal src dataCaption s
      | none => s
  | .closeClick => closeModal s
  | .overlayClick targetIsOverlay => if targetIsOverlay then closeModal s else s
  | .escapeKey => if s.isOpen then closeModal s else s

/-- The cart invariant from the spec, on well-formed items: every price is
nonnegative (finiteness is inherent in the rational representation) and
the ids are pairwise distinct. -/
def cartInvariant (cart : List CartItem) : Prop :=
  (∀ it ∈ cart, 0 ≤ it.price) ∧ (cart.map CartItem.id).Nodup

/-- The cart invariant on a raw JSON cart, as loadCart installs it: every
element is a well-formed item record and the decoded items satisfy the
invariant. -/
def rawCartInvariant (cart : List JsonVal) : Prop :=
  (∀ v ∈ cart, (decodeItem v).isSome = true) ∧
    cartInvariant (cart.filterMap decodeItem)

/-- The cart invariant on raw in-memory items, where finiteness is a real
condition: every price is a finite, nonnegative JS number, and the ids
are pairwise distinct. -/
def cartInvariantFull (cart : List RawCartItem) : Prop :=
  (∀ it ∈ cart, ∃ q, it.price = PriceValue.num (JsNum.finite q) ∧ 0 ≤ q) ∧
    (cart.map RawCartItem.id).Nodup

/-- Decoding inverts encoding on every item. -/
theorem decodeItem_encodeItem (it : CartItem) : decodeItem (encodeItem it) = some it :=
  rfl

/-- The reduced total of a cart with one item appended. -/
theorem cartTotal_append_single (cart : List CartItem) (it : CartItem) :
    cartTotal (cart ++ [it]) = cartTotal cart + it.price := by
  simp [cartTotal, List.foldl_append]

/-- Evaluation: the string 25.00 parses to the finite number 25. -/
theorem parseFloat_25 : parseFloat "25.00" = JsNum.finite 25 := by
  simp [parseFloat, parseFloatAux, digitsToNat, isJsSpace, overflowBound]
  norm_num

/-- Evaluation: the string 40 parses to the finite number 40. -/
theorem parseFloat_40 : parseFloat "40" = JsNum.finite 40 := by
  simp [parseFloat, parseFloatAux, digitsToNat, isJsSpace, overflowBound]
  norm_num

/-- Evaluation: the literal Infinity parses to Infinity. -/
theorem parseFloat_Infinity : parseFloat "Infinity" = JsNum.inf := by
  simp [parseFloat, parseFloatAux, isJsSpace]

/-- The parsed price of the string 25.00 is the finite number 25. -/
theorem parsePrice_str_25 : parsePrice (PriceInput.str "25.00") = some 25 := by
  simp only [parsePrice, parsedPrice, parseFloat_25]

/-- The parsed price of the string 40 is the finite number 40. -/
theorem parsePrice_str_40 : parsePrice (PriceInput.str "40") = some 40 := by
  simp only [parsePrice, parsedPrice, parseFloat_40]

/-- Inversion: a finite parsePrice result pins the parsed price value. -/
theorem parsePrice_eq_some (price : PriceInput) (q : ℚ)
    (hp : parsePrice price = some q) :
    parsedPrice price = PriceValue.num (JsNum.finite q) := by
  unfold parsePrice at hp
  cases hpp : parsedPrice price with
  | num n =>
    cases n with
    | finite r =>
      rw [hpp] at hp
      simp at hp
      rw [hp]
    | inf => rw [hpp] at hp; simp at hp
    | negInf => rw [hpp] at hp; simp at hp
    | nan => rw [hpp] at hp; simp at hp
  | nullV => rw [hpp] at hp; simp at hp
  | boolV b => rw [hpp] at hp; simp at hp
  | undef => rw [hpp] at hp; simp at hp

/-- The coerced guard number of a finitely parsing price. -/
theorem guardNum_of_parsePrice (price : PriceInput) (q : ℚ)
    (hp : parsePrice price = some q) : guardNum price = JsNum.finite q := by
  unfold guardNum
  rw [parsePrice_eq_some price q hp]
  rfl

/-- On a price whose parse is a finite number — the domain every
in-program call stays in — the item-level addToCart is exactly the
restriction of addToCartFull along rawOfItem. -/
theorem addToCartFull_agrees (name : String) (price : PriceInput)
    (id : String) (cart : List CartItem) (q : ℚ)
    (hp : parsePrice price = some q) :
    addToCartFull name price id (cart.map rawOfItem) =
      (addToCart name price id cart).map rawOfItem := by
  have hpp := parsePrice_eq_some price q hp
  have hg := guardNum_of_parsePrice price q hp
  have hfull : addToCartFull name price id (cart.map rawOfItem) =
      if name = "" then cart.map rawOfItem
      else if q < 0 then cart.map rawOfItem
      else cart.map rawOfItem ++ [⟨name, PriceValue.num (JsNum.finite q), id⟩] := by
    unfold addToCartFull
    rw [hg, hpp]
  have hitem : addToCart name price id cart =
      if name = "" then cart
      else if q < 0 then cart else cart ++ [⟨name, q, id⟩] := by
    unfold addToCart
    rw [hp]
  rw [hfull, hitem]
  by_cases hn : name = ""
  · simp [hn]
  by_cases hq : q < 0
  · simp [hn, hq]
  · simp [hn, hq, rawOfItem]

/-- Each raw item survives an eraseIdx as a sublist element, so both
halves of the full invariant are stable under deleting one position. -/
theorem cartInvariantFull_eraseIdx (cart : List RawCartItem) (n : ℕ)
    (h : cartInvariantFull cart) : cartInvariantFull (cart.eraseIdx n) := by
  refine ⟨fun it hit => h.1 it ((List.eraseIdx_sublist cart n).subset hit), ?_⟩
  exact List.Nodup.sublist
    (List.Sublist.map RawCartItem.id (List.eraseIdx_sublist cart n)) h.2

/-- Claim C1: addToCart with a non-empty name and a price that is, or
parses to, a nonnegative number appends exactly the one new item built
from that parsed price and the generated id, so the length grows by one,
the price total grows by exactly that price, and the previous items stay
unchanged in order. -/
theorem addToCart_appends (name : String) (price : PriceInput) (id : String)
    (cart : List CartItem) (q : ℚ) (hname : name ≠ "")
    (hparse : parsePrice price = some q) (hq : 0 ≤ q) :
    addToCart name price id cart = cart ++ [⟨name, q, id⟩] ∧
    (addToCart name price id cart).length = cart.length + 1 ∧
    cartTotal (addToCart name price id cart) = cartTotal cart + q := by
  have heq : addToCart name price id cart = cart ++ [⟨name, q, id⟩] := by
    unfold addToCart
    rw [hparse, if_neg hname]
    exact if_neg (not_lt.mpr hq)
  refine ⟨heq, ?_, ?_⟩
  · rw [heq]; simp
  · rw [heq, cartTotal_append_single]

/-- Witness for C1: adding Sunset Print at the string price 25.00 to a
one-item cart appends the parsed item. -/
theorem addToCart_appends_witness :
    addToCart "Sunset Print" (PriceInput.str "25.00") "id1"
        [⟨"Prior", 1, "id0"⟩] =
      [⟨"Prior", 1, "id0"⟩] ++ [⟨"Sunset Print", 25, "id1"⟩] :=
  (addToCart_appends "Sunset Print" (PriceInput.str "25.00") "id1"
    [⟨"Prior", 1, "id0"⟩] 25 (by decide) parsePrice_str_25 (by norm_num)).1

/-- Counterexample for C2: the non-number value null is not rejected —
typeof null is not string so the ternary keeps it, isNaN(null) is false
(null coerces to 0) and null < 0 is false, so the guard passes and the
item is pushed with the non-number price null, changing the cart. -/
theorem addToCart_nonNumber_cex :
    addToCartFull "Vase" (PriceInput.prim PriceValue.nullV) "id1" [] =
      [⟨"Vase", PriceValue.nullV, "id1"⟩] ∧
    [(⟨"Vase", PriceValue.nullV, "id1"⟩ : RawCartItem)] ≠ [] := by
  refine ⟨?_, by simp⟩
  norm_num [addToCartFull, guardNum, parsedPrice, toNumber]
  decide

/-- Claim C2 as amended: addToCart with an empty name leaves the cart
unchanged, as does any price whose coerced parsed value is NaN (a string
with no parsable prefix, the number NaN, undefined) or compares below
zero (a negative finite number or -Infinity).  But a non-number value
whose coercion is a nonnegative number — null, which coerces to 0, or a
boolean, which coerces to 0 or 1 — passes both guards and is appended,
with that original non-number value stored as the price. -/
theorem addToCart_rejects :
    (∀ (price : PriceInput) (id : String) (cart : List RawCartItem),
      addToCartFull "" price id cart = cart) ∧
    (∀ (name : String) (price : PriceInput) (id : String)
      (cart : List RawCartItem), guardNum price = JsNum.nan →
      addToCartFull name price id cart = cart) ∧
    (∀ (name : String) (price : PriceInput) (id : String)
      (cart : List RawCartItem) (q : ℚ), guardNum price = JsNum.finite q →
      q < 0 → addToCartFull name price id cart = cart) ∧
    (∀ (name : String) (price : PriceInput) (id : String)
      (cart : List RawCartItem), guardNum price = JsNum.negInf →
      addToCartFull name price id cart = cart) ∧
    (∀ (name id : String) (cart : List RawCartItem), name ≠ "" →
      addToCartFull name (PriceInput.prim PriceValue.nullV) id cart =
        cart ++ [⟨name, PriceValue.nullV, id⟩]) ∧
    (∀ (name id : String) (cart : List RawCartItem) (b : Bool), name ≠ "" →
      addToCartFull name (PriceInput.prim (PriceValue.boolV b)) id cart =
        cart ++ [⟨name, PriceValue.boolV b, id⟩]) := by
  refine ⟨fun price id cart => if_pos rfl, ?_, ?_, ?_, ?_, ?_⟩
  · intro name price id cart h
    unfold addToCartFull
    rw [h]
    split
    · rfl
    · rfl
  · intro name price id cart q h hq
    unfold addToCartFull
    rw [h]
    split
    · rfl
    · exact if_pos hq
  · intro name price id cart h
    unfold addToCartFull
    rw [h]
    split
    · rfl
    · rfl
  · intro name id cart hn
    unfold addToCartFull
    rw [if_neg hn]
    exact if_neg (by norm_num)
  · intro name id cart b hn
    unfold addToCartFull
    rw [if_neg hn]
    exact if_neg (by cases b <;> norm_num)

/-- Witness for C2 (amended): a non-parsing string, undefined, a negative
number, -Infinity and an empty name are each rejected with the cart
untouched, while a null price is appended. -/
theorem addToCart_rejects_witness :
    addToCartFull "x" (PriceInput.str "abc") "id1"
        [⟨"a", PriceValue.num (JsNum.finite 1), "i"⟩] =
      [⟨"a", PriceValue.num (JsNum.finite 1), "i"⟩] ∧
    addToCartFull "x" (PriceInput.prim PriceValue.undef) "id1"
        [⟨"a", PriceValue.num (JsNum.finite 1), "i"⟩] =
      [⟨"a", PriceValue.num (JsNum.finite 1), "i"⟩] ∧
    addToCartFull "x" (PriceInput.prim (PriceValue.num (JsNum.finite (-2)))) "id1"
        [⟨"a", PriceValue.num (JsNum.finite 1), "i"⟩] =
      [⟨"a", PriceValue.num (JsNum.finite 1), "i"⟩] ∧
    addToCartFull "x" (PriceInput.prim (PriceValue.num JsNum.negInf)) "id1"
        [⟨"a", PriceValue.num (JsNum.finite 1), "i"⟩] =
      [⟨"a", PriceValue.num (JsNum.finite 1), "i"⟩] ∧
    addToCartFull "" (PriceInput.prim (PriceValue.num (JsNum.finite 5))) "id1"
        [⟨"a", PriceValue.num (JsNum.finite 1), "i"⟩] =
      [⟨"a", PriceValue.num (JsNum.finite 1), "i"⟩] ∧
    addToCartFull "x" (PriceInput.prim PriceValue.nullV) "id1"
        [⟨"a", PriceValue.num (JsNum.finite 1), "i"⟩] =
      [⟨"a", PriceValue.num (JsNum.finite 1), "i"⟩,
        ⟨"x", PriceValue.nullV, "id1"⟩] :=
  ⟨addToCart_rejects.2.1 _ _ _ _ (by
      simp [guardNum, parsedPrice, toNumber, parseFloat, parseFloatAux,
        digitsToNat, isJsSpace]),
   addToCart_rejects.2.1 _ _ _ _ rfl,
   addToCart_rejects.2.2.1 _ _ _ _ (-2) rfl (by norm_num),
   addToCart_rejects.2.2.2.1 _ _ _ _ rfl,
   addToCart_rejects.1 _ _ _,
   addToCart_rejects.2.2.2.2.1 _ _ _ (by decide)⟩

/-- Claim C5: saving any cart of well-formed items and loading it back
yields the same sequence — the stored value is the encoded array, the load
installs exactly it, and each element decodes back to the original item
with the same name, price and id, in the same order. -/
theorem saveCart_loadCart_roundtrip (cart : List CartItem) (stored : Option Stored) :
    loadCart true (saveCart true cart stored) = cart.map encodeItem ∧
    (loadCart true (saveCart true cart stored)).map decodeItem =
      cart.map (fun it => some it) := by
  constructor
  · simp [loadCart, saveCart, saveCartRaw]
  · simp only [loadCart, saveCart, saveCartRaw, if_pos, Bool.not_true, Bool.false_eq_true,
      if_false, List.map_map]
    exact List.map_congr_left fun it _ => decodeItem_encodeItem it

/-- Each CartItem survives an eraseIdx as a sublist element, so both
halves of the cart invariant are stable under deleting one position. -/
theorem cartInvariant_eraseIdx (cart : List CartItem) (n : ℕ)
    (h : cartInvariant cart) : cartInvariant (cart.eraseIdx n) := by
  refine ⟨fun it hit => h.1 it ((List.eraseIdx_sublist cart n).subset hit), ?_⟩
  exact List.Nodup.sublist (List.Sublist.map CartItem.id (List.eraseIdx_sublist cart n)) h.2

/-- addToCart either rejects its input and returns the cart unchanged, or
appends one item carrying the parsed nonnegative price. -/
theorem addToCart_eq_cases (name : String) (price : PriceInput) (id : String)
    (cart : List CartItem) :
    addToCart name price id cart = cart ∨
    ∃ q, parsePrice price = some q ∧ 0 ≤ q ∧
      addToCart name price id cart = cart ++ [⟨name, q, id⟩] := by
  unfold addToCart
  by_cases hn : name = ""
  · rw [if_pos hn]
    exact Or.inl rfl
  rw [if_neg hn]
  cases hp : parsePrice price with
  | none => exact Or.inl rfl
  | some q =>
    by_cases hq : q < 0
    · exact Or.inl (if_pos hq)
    · exact Or.inr ⟨q, rfl, le_of_not_lt hq, if_neg hq⟩

/-- Counterexample for C3: NaN is not a valid index, yet removeItem NaN on
a one-item cart does not leave the cart unchanged — typeof NaN is number
and both range comparisons on NaN are false, so the guard passes and
splice truncates NaN to index 0, deleting the first item. -/
theorem removeItem_nan_cex :
    removeItem IndexInput.nan [(⟨"a", 1, "i"⟩ : CartItem)] = [] ∧
    ([] : List CartItem) ≠ [(⟨"a", 1, "i"⟩ : CartItem)] :=
  ⟨rfl, by simp⟩

/-- Claim C3 as amended: an in-range natural-number index deletes exactly
that item, with the length down by one and the others kept in order; any
in-range number index — integer or fractional — deletes the item at its
floor, the truncation splice applies; a number below zero or at least the
length, or a non-number, is a no-op; but NaN slips through the guard and
deletes index 0. -/
theorem removeItem_spec :
    (∀ (cart : List CartItem) (i : ℕ), i < cart.length →
      removeItem (IndexInput.num i) cart = cart.take i ++ cart.drop (i + 1) ∧
      (removeItem (IndexInput.num i) cart).length = cart.length - 1) ∧
    (∀ (cart : List CartItem) (q : ℚ), 0 ≤ q → q < (cart.length : ℚ) →
      removeItem (IndexInput.num q) cart = cart.eraseIdx (Int.toNat ⌊q⌋) ∧
      (removeItem (IndexInput.num q) cart).length = cart.length - 1) ∧
    (∀ (cart : List CartItem) (q : ℚ), q < 0 ∨ (cart.length : ℚ) ≤ q →
      removeItem (IndexInput.num q) cart = cart) ∧
    (∀ cart : List CartItem, removeItem IndexInput.nonNumber cart = cart) ∧
    (∀ cart : List CartItem, removeItem IndexInput.nan cart = cart.eraseIdx 0) := by
  have hrange : ∀ (cart : List CartItem) (q : ℚ), 0 ≤ q → q < (cart.length : ℚ) →
      removeItem (IndexInput.num q) cart = cart.eraseIdx (Int.toNat ⌊q⌋) ∧
      (removeItem (IndexInput.num q) cart).length = cart.length - 1 := by
    intro cart q hq0 hqlen
    have hguard : ¬(q < 0 ∨ (cart.length : ℚ) ≤ q) := by
      push_neg
      exact ⟨hq0, hqlen⟩
    have heq : removeItem (IndexInput.num q) cart =
        cart.eraseIdx (Int.toNat ⌊q⌋) := if_neg hguard
    have hfl : Int.toNat ⌊q⌋ < cart.length := by
      have h1 : ⌊q⌋ < (cart.length : ℤ) := by
        rw [Int.floor_lt]
        exact_mod_cast hqlen
      have h0 : (0 : ℤ) ≤ ⌊q⌋ := Int.floor_nonneg.mpr hq0
      omega
    refine ⟨heq, ?_⟩
    rw [heq, List.length_eraseIdx, if_pos hfl]
  refine ⟨?_, hrange, ?_, fun cart => rfl, fun cart => rfl⟩
  · intro cart i hi
    have h := hrange cart i (by positivity) (by exact_mod_cast hi)
    rw [Int.floor_natCast, Int.toNat_natCast, List.eraseIdx_eq_take_drop_succ] at h
    exact h
  · intro cart q hq
    exact if_pos hq

/-- Witness for C3 (amended): removing index 1 from a three-item cart
deletes exactly the middle item, the fractional index 1.5 deletes the
item at its floor 1, and removing index 5 from a one-item cart is a
no-op. -/
theorem removeItem_spec_witness :
    removeItem (IndexInput.num 1)
        [(⟨"a", 1, "i"⟩ : CartItem), ⟨"b", 2, "j"⟩, ⟨"c", 3, "k"⟩] =
      [⟨"a", 1, "i"⟩, ⟨"c", 3, "k"⟩] ∧
    removeItem (IndexInput.num (3 / 2))
        [(⟨"a", 1, "i"⟩ : CartItem), ⟨"b", 2, "j"⟩, ⟨"c", 3, "k"⟩] =
      [⟨"a", 1, "i"⟩, ⟨"c", 3, "k"⟩] ∧
    removeItem (IndexInput.num 5) [(⟨"a", 1, "i"⟩ : CartItem)] =
      [⟨"a", 1, "i"⟩] := by
  refine ⟨?_, ?_, ?_⟩
  · have h := (removeItem_spec.1 [⟨"a", 1, "i"⟩, ⟨"b", 2, "j"⟩, ⟨"c", 3, "k"⟩] 1
      (by norm_num)).1
    simpa using h
  · have h := (removeItem_spec.2.1 [⟨"a", 1, "i"⟩, ⟨"b", 2, "j"⟩, ⟨"c", 3, "k"⟩]
      (3 / 2) (by norm_num) (by norm_num)).1
    rw [show Int.toNat ⌊(3 / 2 : ℚ)⌋ = 1 by norm_num] at h
    simpa using h
  · exact removeItem_spec.2.2.1 [⟨"a", 1, "i"⟩] 5 (Or.inr (by norm_num))

/-- Counterexample for C4: loadCart validates only that the parsed value
is an array, so a stored array holding an item with a negative price and
two items sharing one id is installed verbatim, violating the invariant
right after a load. -/
theorem loadCart_invariant_cex :
    loadCart true (some (.json (.arr
        [encodeItem ⟨"x", -5, "a"⟩, encodeItem ⟨"y", 1, "a"⟩]))) =
      [encodeItem ⟨"x", -5, "a"⟩, encodeItem ⟨"y", 1, "a"⟩] ∧
    ¬ rawCartInvariant [encodeItem ⟨"x", -5, "a"⟩, encodeItem ⟨"y", 1, "a"⟩] := by
  refine ⟨rfl, ?_⟩
  intro h
  have hd := h.2.2
  have hids : (List.filterMap decodeItem
      [encodeItem ⟨"x", -5, "a"⟩, encodeItem ⟨"y", 1, "a"⟩]).map CartItem.id =
      ["a", "a"] := rfl
  rw [hids] at hd
  simp at hd

/-- Claim C4 as amended, over the raw items where finiteness is a real
condition: addToCart preserves the invariant whenever the parsed price is
a finite number and the generated id is not already in the cart (the id
combines Date.now and Math.random with no uniqueness guarantee, so
freshness is a hypothesis, not a theorem); but a price parsing to
Infinity — the string Infinity, accepted because isNaN(Infinity) and
Infinity < 0 are both false — is appended with a non-finite price,
breaking the invariant despite a fresh id.  removeItem preserves the
invariant unconditionally and clearCart leaves an empty or unchanged
cart; loadCart installs any persisted array without validating its
elements, so the invariant can fail right after a load. -/
theorem cartInvariant_preserved :
    (∀ (name : String) (price : PriceInput) (id : String)
      (cart : List RawCartItem) (q : ℚ), parsePrice price = some q →
      cartInvariantFull cart → id ∉ cart.map RawCartItem.id →
      cartInvariantFull (addToCartFull name price id cart)) ∧
    (∀ (name id : String) (cart : List RawCartItem), name ≠ "" →
      addToCartFull name (PriceInput.str "Infinity") id cart =
        cart ++ [⟨name, PriceValue.num JsNum.inf, id⟩] ∧
      ¬ cartInvariantFull
          (addToCartFull name (PriceInput.str "Infinity") id cart)) ∧
    (∀ (idx : IndexInput) (cart : List RawCartItem),
      cartInvariantFull cart → cartInvariantFull (removeItem idx cart)) ∧
    (∀ (answer : Bool) (s : CartState),
      cartInvariant s.cart → cartInvariant (clearCart answer s).1.cart) := by
  refine ⟨?_, ?_, ?_, ?_⟩
  · intro name price id cart q hp hinv hfresh
    have hpp := parsePrice_eq_some price q hp
    have hg := guardNum_of_parsePrice price q hp
    have heq : addToCartFull name price id cart =
        if name = "" then cart
        else if q < 0 then cart
        else cart ++ [⟨name, PriceValue.num (JsNum.finite q), id⟩] := by
      unfold addToCartFull
      rw [hg, hpp]
    rw [heq]
    by_cases hn : name = ""
    · rw [if_pos hn]; exact hinv
    rw [if_neg hn]
    by_cases hq : q < 0
    · rw [if_pos hq]; exact hinv
    rw [if_neg hq]
    constructor
    · intro it hit
      rcases List.mem_append.mp hit with hmem | hmem
      · exact hinv.1 it hmem
      · rw [List.mem_singleton] at hmem
        subst hmem
        exact ⟨q, rfl, le_of_not_lt hq⟩
    · rw [List.map_append]
      refine List.nodup_append.mpr ⟨hinv.2, List.nodup_singleton id, ?_⟩
      intro x hx hx1
      rw [List.map_singleton, List.mem_singleton] at hx1
      subst hx1
      exact hfresh hx
  · intro name id cart hn
    have hg : guardNum (PriceInput.str "Infinity") = JsNum.inf := by
      simp only [guardNum, parsedPrice, parseFloat_Infinity, toNumber]
    have heq : addToCartFull name (PriceInput.str "Infinity") id cart =
        cart ++ [⟨name, PriceValue.num JsNum.inf, id⟩] := by
      unfold addToCartFull
      rw [hg, if_neg hn]
      simp only [parsedPrice, parseFloat_Infinity]
    refine ⟨heq, ?_⟩
    rw [heq]
    intro h
    obtain ⟨q, hq, -⟩ := h.1 ⟨name, PriceValue.num JsNum.inf, id⟩
      (List.mem_append.mpr (Or.inr (List.mem_singleton.mpr rfl)))
    exact JsNum.noConfusion (PriceValue.num.inj hq)
  · intro idx cart hinv
    cases idx with
    | nonNumber => exact hinv
    | nan => exact cartInvariantFull_eraseIdx cart 0 hinv
    | num q =>
      by_cases hq : q < 0 ∨ (cart.length : ℚ) ≤ q
      · have heq : removeItem (IndexInput.num q) cart = cart := if_pos hq
        rw [heq]; exact hinv
      · have heq : removeItem (IndexInput.num q) cart =
            cart.eraseIdx (Int.toNat ⌊q⌋) := if_neg hq
        rw [heq]; exact cartInvariantFull_eraseIdx cart _ hinv
  · intro answer s hinv
    unfold clearCart
    split
    · exact hinv
    · split
      · exact ⟨fun it hit => absurd hit (List.not_mem_nil it), List.nodup_nil⟩
      · exact hinv

/-- Witness for C4 (amended): adding a finite-priced fresh-id item
preserves the invariant on a concrete one-item cart, the Infinity price
breaks it there, removal preserves it, and clearing a concrete state
leaves an invariant cart. -/
theorem cartInvariant_preserved_witness :
    cartInvariantFull (addToCartFull "x"
      (PriceInput.prim (PriceValue.num (JsNum.finite 2))) "b"
      [⟨"a", PriceValue.num (JsNum.finite 1), "a"⟩]) ∧
    ¬ cartInvariantFull (addToCartFull "x" (PriceInput.str "Infinity") "b"
      [⟨"a", PriceValue.num (JsNum.finite 1), "a"⟩]) ∧
    cartInvariantFull (removeItem (IndexInput.num 0)
      [(⟨"a", PriceValue.num (JsNum.finite 1), "a"⟩ : RawCartItem)]) ∧
    cartInvariant (clearCart true ⟨[⟨"a", 1, "a"⟩], none, true⟩).1.cart := by
  have hinv : cartInvariantFull
      [(⟨"a", PriceValue.num (JsNum.finite 1), "a"⟩ : RawCartItem)] := by
    refine ⟨?_, by simp⟩
    intro it hit
    rw [List.mem_singleton] at hit
    subst hit
    exact ⟨1, rfl, by norm_num⟩
  have hinv1 : cartInvariant [(⟨"a", 1, "a"⟩ : CartItem)] := by
    refine ⟨?_, by simp⟩
    intro it hit
    rw [List.mem_singleton] at hit
    subst hit
    norm_num
  exact ⟨cartInvariant_preserved.1 "x" _ "b" _ 2 rfl hinv (by simp),
    (cartInvariant_preserved.2.1 "x" "b" _ (by decide)).2,
    cartInvariant_preserved.2.2.1 (IndexInput.num 0) _ hinv,
    cartInvariant_preserved.2.2.2 true ⟨[⟨"a", 1, "a"⟩], none, true⟩ hinv1⟩

/-- Counterexample for C6: a persisted array whose element is not a
well-formed cart item (the number 1 is no item record) is not reset to the
empty sequence — loadCart checks only Array.isArray and installs it. -/
theorem loadCart_wellformed_cex :
    loadCart true (some (.json (.arr [JsonVal.num 1]))) = [JsonVal.num 1] ∧
    decodeItem (JsonVal.num 1) = none ∧
    [JsonVal.num 1] ≠ ([] : List JsonVal) :=
  ⟨rfl, rfl, by simp⟩

/-- Claim C6 as amended: loadCart is total (never throws outward) and
yields the empty cart whenever storage is unavailable, the key is absent,
or the stored text is not parseable JSON, and also when the parsed value
is not an array; a parsed array, however, is installed as the cart exactly
as it is, with no per-element validation. -/
theorem loadCart_spec :
    (∀ stored, loadCart false stored = []) ∧
    loadCart true none = [] ∧
    loadCart true (some Stored.garbage) = [] ∧
    (∀ v : JsonVal, (∀ elems, v ≠ JsonVal.arr elems) →
      loadCart true (some (Stored.json v)) = []) ∧
    (∀ elems, loadCart true (some (Stored.json (JsonVal.arr elems))) = elems) := by
  refine ⟨fun stored => rfl, rfl, rfl, ?_, fun elems => rfl⟩
  intro v hv
  cases v with
  | null => rfl
  | bool b => rfl
  | num q => rfl
  | str s => rfl
  | arr elems => exact absurd rfl (hv elems)
  | obj fields => rfl

/-- Witness for C6 (amended): with storage off nothing is read, and a
stored JSON string (not an array) resets to the empty cart. -/
theorem loadCart_spec_witness :
    loadCart false (some (Stored.json (JsonVal.arr [JsonVal.num 7]))) = [] ∧
    loadCart true (some (Stored.json (JsonVal.str "nope"))) = [] :=
  ⟨loadCart_spec.1 _,
   loadCart_spec.2.2.2.1 (JsonVal.str "nope") (fun _ h => JsonVal.noConfusion h)⟩

/-- Claim C7: clearing an empty cart invokes no confirm and changes
nothing; clearing a non-empty cart always invokes confirm; a confirmed
clear empties the in-memory cart and (with storage usable) persists the
empty array; a declined clear changes nothing. -/
theorem clearCart_spec :
    (∀ (answer : Bool) (s : CartState), s.cart = [] →
      clearCart answer s = (s, false)) ∧
    (∀ (answer : Bool) (s : CartState), s.cart ≠ [] →
      (clearCart answer s).2 = true) ∧
    (∀ s : CartState, s.cart ≠ [] → s.available = true →
      (clearCart true s).1.cart = [] ∧
      (clearCart true s).1.stored = some (Stored.json (JsonVal.arr []))) ∧
    (∀ s : CartState, s.cart ≠ [] → clearCart false s = (s, true)) := by
  have hlen : ∀ s : CartState, s.cart ≠ [] → ¬(s.cart.length = 0) := by
    intro s hs h
    exact hs (List.length_eq_zero.mp h)
  refine ⟨?_, ?_, ?_, ?_⟩
  · intro answer s hs
    unfold clearCart
    rw [if_pos (by rw [hs]; rfl)]
  · intro answer s hs
    unfold clearCart
    rw [if_neg (hlen s hs)]
    split
    · rfl
    · rfl
  · intro s hs hav
    unfold clearCart
    rw [if_neg (hlen s hs), if_pos rfl]
    exact ⟨rfl, by simp [saveCart, saveCartRaw, hav]⟩
  · intro s hs
    unfold clearCart
    rw [if_neg (hlen s hs)]
    rfl

/-- Witness for C7: on concrete states — an empty cart is untouched with
no prompt; a confirmed clear of a one-item cart empties and persists the
empty array; a declined clear is the identity with a prompt. -/
theorem clearCart_spec_witness :
    clearCart true ⟨[], none, true⟩ = (⟨[], none, true⟩, false) ∧
    (clearCart true ⟨[⟨"a", 1, "i"⟩], none, true⟩).1.cart = [] ∧
    (clearCart true ⟨[⟨"a", 1, "i"⟩], none, true⟩).1.stored =
      some (Stored.json (JsonVal.arr [])) ∧
    clearCart false ⟨[⟨"a", 1, "i"⟩], none, true⟩ =
      (⟨[⟨"a", 1, "i"⟩], none, true⟩, true) :=
  ⟨clearCart_spec.1 true _ rfl,
   (clearCart_spec.2.2.1 ⟨[⟨"a", 1, "i"⟩], none, true⟩ (by simp) rfl).1,
   (clearCart_spec.2.2.1 ⟨[⟨"a", 1, "i"⟩], none, true⟩ (by simp) rfl).2,
   clearCart_spec.2.2.2 ⟨[⟨"a", 1, "i"⟩], none, true⟩ (by simp)⟩

/-- renderRows makes one row per cart item. -/
theorem renderRows_length (start : ℕ) (cart : List CartItem) :
    (renderRows start cart).length = cart.length := by
  induction cart generalizing start with
  | nil => rfl
  | cons it rest ih => simp [renderRows, ih]

/-- Claim C8: the rendered cart view is computed from the current cart
alone — the empty cart gives the single placeholder row and the zero
total, a non-empty cart gives one row per item and the reduced total
through toFixed(2); on the concrete scenario, adding Sunset Print at the
string price 25.00 and Ocean Wave at the string price 40 displays
Total: $65.00, and removing index 0 then displays Total: $40.00 with one
row remaining. -/
theorem updateCartUI_spec :
    updateCartUI [] = CartView.emptyView "Your cart is empty" "Total: $0.00" ∧
    (∀ cart : List CartItem, cart ≠ [] →
      updateCartUI cart =
        CartView.itemsView (renderRows 0 cart)
          ("Total: $" ++ toFixed2 (cartTotal cart)) ∧
      (renderRows 0 cart).length = cart.length) ∧
    (updateCartUI (addToCart "Ocean Wave" (PriceInput.str "40") "id2"
        (addToCart "Sunset Print" (PriceInput.str "25.00") "id1" []))).totalText =
      "Total: $65.00" ∧
    (updateCartUI (removeItem (IndexInput.num 0)
        (addToCart "Ocean Wave" (PriceInput.str "40") "id2"
          (addToCart "Sunset Print" (PriceInput.str "25.00") "id1" [])))).totalText =
      "Total: $40.00" ∧
    (updateCartUI (removeItem (IndexInput.num 0)
        (addToCart "Ocean Wave" (PriceInput.str "40") "id2"
          (addToCart "Sunset Print" (PriceInput.str "25.00") "id1" [])))).rowCount = 1 := by
  have h1 : addToCart "Sunset Print" (PriceInput.str "25.00") "id1" [] =
      [⟨"Sunset Print", 25, "id1"⟩] := by
    unfold addToCart
    rw [parsePrice_str_25, if_neg (by decide : ¬("Sunset Print" = ""))]
    norm_num
  have h2 : addToCart "Ocean Wave" (PriceInput.str "40") "id2"
      [⟨"Sunset Print", 25, "id1"⟩] =
      [⟨"Sunset Print", 25, "id1"⟩, ⟨"Ocean Wave", 40, "id2"⟩] := by
    unfold addToCart
    rw [parsePrice_str_40, if_neg (by decide : ¬("Ocean Wave" = ""))]
    norm_num
  have h3 : removeItem (IndexInput.num 0)
      [(⟨"Sunset Print", 25, "id1"⟩ : CartItem), ⟨"Ocean Wave", 40, "id2"⟩] =
      [⟨"Ocean Wave", 40, "id2"⟩] := by
    unfold removeItem
    norm_num
  have hview2 : updateCartUI
      [(⟨"Sunset Print", 25, "id1"⟩ : CartItem), ⟨"Ocean Wave", 40, "id2"⟩] =
      CartView.itemsView
        [⟨"Sunset Print", "$25.00", 0⟩, ⟨"Ocean Wave", "$40.00", 1⟩]
        "Total: $65.00" := by
    unfold updateCartUI
    norm_num [cartTotal, renderRows, toFixed2]
    refine ⟨⟨rfl, rfl⟩, rfl⟩
  have hview1 : updateCartUI [(⟨"Ocean Wave", 40, "id2"⟩ : CartItem)] =
      CartView.itemsView [⟨"Ocean Wave", "$40.00", 0⟩] "Total: $40.00" := by
    unfold updateCartUI
    norm_num [cartTotal, renderRows, toFixed2]
    refine ⟨rfl, rfl⟩
  refine ⟨rfl, ?_, ?_, ?_, ?_⟩
  · intro cart hc
    refine ⟨?_, renderRows_length 0 cart⟩
    unfold updateCartUI
    rw [if_neg fun h => hc (List.length_eq_zero.mp h)]
  · rw [h1, h2, hview2]
    rfl
  · rw [h1, h2, h3, hview1]
    rfl
  · rw [h1, h2, h3, hview1]
    rfl

/-- Witness for C8: the one-item cart renders as one row plus its
formatted total. -/
theorem updateCartUI_spec_witness :
    updateCartUI [⟨"a", 1, "i"⟩] =
      CartView.itemsView (renderRows 0 [⟨"a", 1, "i"⟩])
        ("Total: $" ++ toFixed2 (cartTotal [⟨"a", 1, "i"⟩])) :=
  (updateCartUI_spec.2.1 [⟨"a", 1, "i"⟩] (by simp)).1

/-- Claim C9: each close event — close-button click, a click landing on
the overlay background itself, or Escape while the modal is open — yields
the closed state with scrolling restored and the image source cleared;
Escape while closed changes nothing; and on the concrete scenario, a
thumbnail carrying art1-full.jpg and caption Autumn opens the modal on
that image and caption, after which Escape closes and clears it. -/
theorem modal_close_spec :
    (∀ s : ModalState, modalStep ModalEvent.closeClick s = closeModal s) ∧
    (∀ s : ModalState, modalStep (ModalEvent.overlayClick true) s = closeModal s) ∧
    (∀ s : ModalState, s.isOpen = true →
      modalStep ModalEvent.escapeKey s = closeModal s) ∧
    (∀ s : ModalState, (closeModal s).isOpen = false ∧
      (closeModal s).scrollLocked = false ∧ (closeModal s).imageSrc = "") ∧
    (∀ s : ModalState, s.isOpen = false → modalStep ModalEvent.escapeKey s = s) ∧
    (modalStep (ModalEvent.thumbnailClick (some "art1-full.jpg") (some "Autumn"))
        ⟨false, "", "", false, false⟩ =
      ⟨true, "art1-full.jpg", "Autumn", true, true⟩ ∧
     modalStep ModalEvent.escapeKey ⟨true, "art1-full.jpg", "Autumn", true, true⟩ =
      ⟨false, "", "Autumn", true, false⟩) := by
  refine ⟨fun s => rfl, fun s => rfl, ?_, fun s => ⟨rfl, rfl, rfl⟩, ?_, ?_, ?_⟩
  · intro s h
    unfold modalStep
    rw [h]
    rfl
  · intro s h
    unfold modalStep
    rw [h]
    rfl
  · rfl
  · rfl

/-- Witness for C9: Escape on a concrete open state closes it, and Escape
on a concrete closed state is the identity. -/
theorem modal_close_spec_witness :
    modalStep ModalEvent.escapeKey (⟨true, "a.jpg", "c", true, true⟩ : ModalState) =
      closeModal ⟨true, "a.jpg", "c", true, true⟩ ∧
    modalStep ModalEvent.escapeKey (⟨false, "", "", false, false⟩ : ModalState) =
      ⟨false, "", "", false, false⟩ :=
  ⟨modal_close_spec.2.2.1 _ rfl, modal_close_spec.2.2.2.2.1 _ rfl⟩

/-- Claim C10: checkout leaves the whole cart state — in-memory cart,
stored cell and availability — untouched; it only selects one of the two
alert messages by whether the cart is empty. -/
theorem checkout_frame (s : CartState) :
    (checkout s).1 = s ∧
    (checkout s).2 = (if s.cart.length = 0 then "Your cart is empty!"
      else "Checkout functionality coming soon!") := by
  unfold checkout
  split
  · exact ⟨rfl, by simp [*]⟩
  · exact ⟨rfl, by simp [*]⟩

end ArtStudio

